import Mathlib

/-!
Verification development for the pydirectinput library
(`pydirectinput/__init__.py`).

The library marshals keyboard and mouse events into Windows `INPUT`
structures and hands them to the external `SendInput` primitive.  This file
shallowly embeds the pure computational core of the module:

* the pixel to normalized-screen-coordinate conversion
  (`_calc_normalized_screen_coord`),
* the interpolation helper `_add_one_step` (Python `float` arithmetic is
  embedded as exact rational arithmetic, and Python's `round`, which rounds
  half to even, as `py_round`),
* the scancode event-array construction of `scancode_keyDown` /
  `scancode_keyUp` including the extended-key and auto-shift encoding,
* the key-name lookup of `keyDown` / `keyUp`,
* the mouse-acceleration settings store `__MouseSpeedSettings`,
* the failsafe decorator `_genericPyDirectInputChecks`, and
* the relative-movement loop of `moveRel`.

External collaborators (the `SendInput` syscall, the wall clock, display
metrics) are modelled as explicit parameters: `SendInput` as a function
from the submitted event array to the count of accepted events, the clock
readings of the `moveRel` loop as a list of precomputed time-segment
bounds.  Process-global state (the key mapping, failsafe settings, the
event stream handed to the OS) is modelled by the explicit state record
`PyState` threaded through the operations.
-/

namespace PyDirectInput

/-- Windows `INPUT` event record as built by `_create_keyboard_input` /
`_create_mouse_input` (the `time` and `dwExtraInfo` members are always 0 in
the library and are omitted). -/
inductive INPUT where
  | ki (wVk wScan dwFlags : Nat) : INPUT
  | mi (dx dy : Int) (mouseData : Int) (dwFlags : Nat) : INPUT
deriving DecidableEq

/-- Flag constant `_MOUSEEVENTF_MOVE = 0x0001`. -/
def _MOUSEEVENTF_MOVE : Nat := 0x0001

/-- Flag constant `_KEYEVENTF_EXTENDEDKEY = 0x0001`. -/
def _KEYEVENTF_EXTENDEDKEY : Nat := 0x0001

/-- Flag constant `_KEYEVENTF_KEYUP = 0x0002`. -/
def _KEYEVENTF_KEYUP : Nat := 0x0002

/-- Flag constant `_KEYEVENTF_SCANCODE = 0x0008`. -/
def _KEYEVENTF_SCANCODE : Nat := 0x0008

/-- Shift-offset bit `_OFFSET_SHIFTKEY = 0x10000` marking mapping entries
that need an automatically inserted Shift key. -/
def _OFFSET_SHIFTKEY : Nat := 0x10000

/-- Extended-key offset `_OFFSET_EXTENDEDKEY = 0xE000`. -/
def _OFFSET_EXTENDEDKEY : Nat := 0xE000

/-- Scan code of the (left) Shift key, `_SHIFT_SCANCODE = 0x2A`. -/
def _SHIFT_SCANCODE : Nat := 0x2A

/-- `_create_keyboard_input(wVk, wScan, dwFlags)`: keyboard `INPUT` record. -/
def _create_keyboard_input (wVk wScan dwFlags : Nat) : INPUT :=
  INPUT.ki wVk wScan dwFlags

/-- `_create_mouse_input(dx, dy, mouseData, dwFlags)`: mouse `INPUT` record. -/
def _create_mouse_input (dx dy mouseData : Int) (dwFlags : Nat) : INPUT :=
  INPUT.mi dx dy mouseData dwFlags

/-- `_calc_normalized_screen_coord(pixel_coord, display_total)`:

    this_pixel = (pixel_coord * 65536 + display_total - 1) // display_total
    next_pixel = ((pixel_coord + 1) * 65536 + display_total - 1) // display_total
    return (this_pixel + next_pixel) // 2

Python integers are embedded as `Int` and Python's floor division `//` as
`Int.fdiv`. -/
def _calc_normalized_screen_coord (pixel_coord display_total : Int) : Int :=
  let this_pixel : Int :=
    Int.fdiv (pixel_coord * 65536 + display_total - 1) display_total
  let next_pixel : Int :=
    Int.fdiv ((pixel_coord + 1) * 65536 + display_total - 1) display_total
  Int.fdiv (this_pixel + next_pixel) 2

/-- Python's built-in `round` on the exact value of its argument: round to
the nearest integer, ties going to the even integer. -/
def py_round (q : ℚ) : ℤ :=
  if q - ⌊q⌋ < 1/2 then ⌊q⌋
  else if 1/2 < q - ⌊q⌋ then ⌊q⌋ + 1
  else if ⌊q⌋ % 2 = 0 then ⌊q⌋ else ⌊q⌋ + 1

/-- Binary64 (Python `float`) rounding of an exact rational value: round
`q` to the nearest multiple of its unit in the last place
`2 ^ (⌊log₂ |q|⌋ - 52)`, ties to the even multiple (the mantissa
`py_round (q / ulp)` is even on ties).  The finite exponent range of
binary64 is not modelled: conversions overflowing above `2 ^ 1024` (where
CPython raises `OverflowError` instead of producing a float) and
subnormal results below `2 ^ (-1022)` (never produced by the expressions
this file analyzes) keep an unbounded exponent here; every theorem about
float-carrying code below is settled far inside the normal range. -/
def fl (q : ℚ) : ℚ :=
  if q = 0 then 0
  else (py_round (q / 2 ^ (Int.log 2 |q| - 52)) : ℚ) *
    2 ^ (Int.log 2 |q| - 52)

/-- `_add_one_step(current, target, remaining_steps)`:

    if remaining_steps <= 1: return target
    step_factor = (remaining_steps - 1) / remaining_steps
    return round(target - ((target - current) * step_factor))

`remaining_steps - 1` and `target - current` are exact `int` arithmetic;
`step_factor` is the correctly rounded binary64 quotient of the two ints
(CPython `int / int`); `(target - current) * step_factor` converts the
int to binary64 and rounds the binary64 product; the outer subtraction
converts `target` to binary64 and rounds the difference; `round` of the
resulting float rounds half to even (`py_round`).  Each rounding is one
application of `fl`. -/
def _add_one_step (current target remaining_steps : Int) : Int :=
  if remaining_steps ≤ 1 then target
  else
    let step_factor : ℚ :=
      fl (((remaining_steps : ℚ) - 1) / (remaining_steps : ℚ))
    py_round (fl (fl (target : ℚ) -
      fl (fl ((target : ℚ) - (current : ℚ)) * step_factor)))

/-- Value type of `KEYBOARD_MAPPING`: a single scancode integer or a
`ScancodeSequence` of several. -/
inductive ScancodeTypes where
  | single (s : Nat) : ScancodeTypes
  | seq (l : List Nat) : ScancodeTypes
deriving DecidableEq

/-- The `isinstance(scancodes, int)` normalization at the top of
`scancode_keyDown` / `scancode_keyUp`: a single int becomes
`ScancodeSequence([scancodes])`. -/
def to_scancode_sequence : ScancodeTypes → List Nat
  | ScancodeTypes.single s => [s]
  | ScancodeTypes.seq l => l

/-- Event-construction loop shared by `scancode_keyDown` and
`scancode_keyUp`: for every scancode, optionally emit a Shift record (when
`auto_shift` and the `_OFFSET_SHIFTKEY` bit is set), then emit the record
for `scancode & 0xFFFF` with `_KEYEVENTF_EXTENDEDKEY` added when that
masked value is at least `0xE000`.  Returns the accumulated
`input_structs` array and the `expectedEvents` counter.  The loop body is
the step function here; the loop itself is `scancode_event_loop`. -/
def scancode_event_step (keybdFlags : Nat) (auto_shift : Bool)
    (acc : List INPUT × Nat) (scancode : Nat) : List INPUT × Nat :=
  let acc1 : List INPUT × Nat :=
    if auto_shift = true ∧ scancode &&& _OFFSET_SHIFTKEY ≠ 0 then
      (acc.1 ++ [_create_keyboard_input 0 _SHIFT_SCANCODE keybdFlags],
        acc.2 + 1)
    else acc
  let sc : Nat := scancode &&& 0xFFFF
  let extendedFlag : Nat :=
    if 0xE000 ≤ sc then _KEYEVENTF_EXTENDEDKEY else 0
  (acc1.1 ++ [_create_keyboard_input 0 sc (keybdFlags ||| extendedFlag)],
    acc1.2 + 1)

/-- The `for scancode in scancodes_sequence` loop of `scancode_keyDown` /
`scancode_keyUp`, starting from the empty `input_structs` array and
`expectedEvents = 0`. -/
def scancode_event_loop (keybdFlags : Nat) (auto_shift : Bool)
    (scancodes_sequence : List Nat) : List INPUT × Nat :=
  scancodes_sequence.foldl (scancode_event_step keybdFlags auto_shift) ([], 0)

/-- The event records generated for one scancode by the loop body of
`scancode_keyDown` / `scancode_keyUp` (used to characterize
`scancode_event_loop`). -/
def per_scancode_events (keybdFlags : Nat) (auto_shift : Bool)
    (scancode : Nat) : List INPUT :=
  (if auto_shift = true ∧ scancode &&& _OFFSET_SHIFTKEY ≠ 0 then
      [_create_keyboard_input 0 _SHIFT_SCANCODE keybdFlags]
    else []) ++
  [_create_keyboard_input 0 (scancode &&& 0xFFFF)
    (keybdFlags |||
      (if 0xE000 ≤ scancode &&& 0xFFFF then _KEYEVENTF_EXTENDEDKEY else 0))]

/-- `scancode_keyDown(scancodes, auto_shift=...)`.  The external
`SendInput` primitive is the parameter `send`, mapping the submitted event
array to the count of events it accepted.  Returns the boolean result
`insertedEvents == expectedEvents` together with the submitted array. -/
def scancode_keyDown (send : List INPUT → Nat) (scancodes : ScancodeTypes)
    (auto_shift : Bool) : Bool × List INPUT :=
  let keybdFlags : Nat := _KEYEVENTF_SCANCODE
  let r := scancode_event_loop keybdFlags auto_shift
    (to_scancode_sequence scancodes)
  let insertedEvents : Nat := send r.1
  (insertedEvents == r.2, r.1)

/-- `scancode_keyUp(scancodes, auto_shift=...)`, analogous to
`scancode_keyDown` with `keybdFlags = _KEYEVENTF_SCANCODE |
_KEYEVENTF_KEYUP`. -/
def scancode_keyUp (send : List INPUT → Nat) (scancodes : ScancodeTypes)
    (auto_shift : Bool) : Bool × List INPUT :=
  let keybdFlags : Nat := _KEYEVENTF_SCANCODE ||| _KEYEVENTF_KEYUP
  let r := scancode_event_loop keybdFlags auto_shift
    (to_scancode_sequence scancodes)
  let insertedEvents : Nat := send r.1
  (insertedEvents == r.2, r.1)

/-- `KEYBOARD_MAPPING` is a Python `dict[str, ScancodeTypes]`; embedded as
an association list. -/
abbrev Mapping : Type := List (String × ScancodeTypes)

/-- `keyDown(key)`: look up `key` in the mapping (`dict.get`, which returns
`None` rather than raising on a missing key); on `None` return `False`
without constructing or submitting any event, otherwise defer to
`scancode_keyDown`.  Also returns the submitted event array. -/
def keyDown (mapping : Mapping) (send : List INPUT → Nat) (key : String)
    (auto_shift : Bool) : Bool × List INPUT :=
  match List.lookup key mapping with
  | none => (false, [])
  | some scancode => scancode_keyDown send scancode auto_shift

/-- `keyUp(key)`, analogous to `keyDown`. -/
def keyUp (mapping : Mapping) (send : List INPUT → Nat) (key : String)
    (auto_shift : Bool) : Bool × List INPUT :=
  match List.lookup key mapping with
  | none => (false, [])
  | some scancode => scancode_keyUp send scancode auto_shift

/-- One iteration chain of the `relative=True` loop of `moveRel`.  Each
list element is the externally-determined clock bound
`int((final_time - _time()) / MINIMUM_SLEEP_ACTUAL)` read in that
iteration; the loop ends after the iteration whose
`time_segments = min(clock, max(xOffset - current_x, yOffset - current_y))`
is `<= 1` (`keep_looping = False`), and an iteration whose step is
`(0, 0)` submits nothing (`continue`).  Returns the submitted mouse
events in order. -/
def moveRel_loop (xOffset yOffset : Int) :
    List Int → Int → Int → List INPUT
  | [], _, _ => []
  | clock :: rest, current_x, current_y =>
    let time_segments : Int :=
      min clock (max (xOffset - current_x) (yOffset - current_y))
    let x : Int := _add_one_step current_x xOffset time_segments - current_x
    let y : Int := _add_one_step current_y yOffset time_segments - current_y
    if x = 0 ∧ y = 0 then
      if time_segments ≤ 1 then []
      else moveRel_loop xOffset yOffset rest current_x current_y
    else
      _create_mouse_input x y 0 _MOUSEEVENTF_MOVE ::
        (if time_segments ≤ 1 then []
         else moveRel_loop xOffset yOffset rest (current_x + x) (current_y + y))

/-- `moveRel(xOffset, yOffset, relative=True)` with the default
`disable_mouse_acceleration=False`: `None` offsets become 0, then the
relative-movement loop runs starting from `current_x = current_y = 0`. -/
def moveRel_relative (xOffset yOffset : Option Int) (clocks : List Int) :
    List INPUT :=
  moveRel_loop (xOffset.getD 0) (yOffset.getD 0) clocks 0 0

/-- Class-variable state of the `__MouseSpeedSettings` singleton: the
context-manager storage slots and nesting counter. -/
structure MouseSpeedState where
  ctx_epp : Option Int
  ctx_speed : Option Int
  ctx_count : Int
deriving DecidableEq

/-- `__MouseSpeedSettings.set_ctxtmgr_mouse_settings(epp, speed)`:
increment the nesting counter; store the values only when the counter
is now 1 (no other value already stored). -/
def set_ctxtmgr_mouse_settings (st : MouseSpeedState) (epp speed : Int) :
    MouseSpeedState :=
  let count := st.ctx_count + 1
  if count > 1 then { st with ctx_count := count }
  else { ctx_epp := some epp, ctx_speed := some speed, ctx_count := count }

/-- `__MouseSpeedSettings.get_ctxtmgr_mouse_settings()`: decrement the
nesting counter; while it stays positive return `(None, None)` without
touching the stored values, otherwise return and clear them. -/
def get_ctxtmgr_mouse_settings (st : MouseSpeedState) :
    (Option Int × Option Int) × MouseSpeedState :=
  let count := st.ctx_count - 1
  if count > 0 then ((none, none), { st with ctx_count := count })
  else ((st.ctx_epp, st.ctx_speed),
    { ctx_epp := none, ctx_speed := none, ctx_count := count })

/-- Apply `set_ctxtmgr_mouse_settings` once per listed `(epp, speed)`
pair, in order. -/
def do_sets : MouseSpeedState → List (Int × Int) → MouseSpeedState
  | st, [] => st
  | st, v :: vs => do_sets (set_ctxtmgr_mouse_settings st v.1 v.2) vs

/-- Apply `get_ctxtmgr_mouse_settings` `n` times, collecting the returned
pairs in call order. -/
def do_gets : MouseSpeedState → Nat →
    List (Option Int × Option Int) × MouseSpeedState
  | st, 0 => ([], st)
  | st, n + 1 =>
    let r := get_ctxtmgr_mouse_settings st
    let rest := do_gets r.2 n
    (r.1 :: rest.1, rest.2)

/-- Process-wide mutable state of the module: the two key-mapping dicts
(`KEYBOARD_MAPPING`, populated at import time from `US_QWERTY_MAPPING`,
and `US_QWERTY_MAPPING` itself — both module-level Python dicts that code
could in principle mutate), the failsafe settings, the current cursor
position (owned by the OS but read through `position()`), and the stream
of event records submitted to `SendInput` so far. -/
structure PyState where
  KEYBOARD_MAPPING : Mapping
  US_QWERTY_MAPPING : Mapping
  FAILSAFE : Bool
  FAILSAFE_POINTS : List (Int × Int)
  cursor : Int × Int
  events : List INPUT

/-- Both key-mapping dicts of `st2` are exactly those of `st`. -/
def same_mappings (st st2 : PyState) : Prop :=
  st2.KEYBOARD_MAPPING = st.KEYBOARD_MAPPING ∧
  st2.US_QWERTY_MAPPING = st.US_QWERTY_MAPPING

/-- `_send_input(inputs)` as a state update: the records are appended to
the stream handed to the OS. -/
def _send_input_st (st : PyState) (inputs : List INPUT) : PyState :=
  { st with events := st.events ++ inputs }

/-- Condition under which `_failSafeCheck()` raises `FailSafeException`:
`FAILSAFE and tuple(position()) in FAILSAFE_POINTS`. -/
def _failSafeCheck_triggers (st : PyState) : Bool :=
  st.FAILSAFE && decide (st.cursor ∈ st.FAILSAFE_POINTS)

/-- The `_genericPyDirectInputChecks` decorator: run `_failSafeCheck()`
first and raise (model: `Except.error` carrying the untouched state)
before the wrapped function runs; otherwise run the wrapped function.
(The trailing `_handlePause` sleep does not affect the state.) -/
def _genericPyDirectInputChecks {α : Type}
    (wrappedFunction : PyState → α × PyState) (st : PyState) :
    Except PyState (α × PyState) :=
  if _failSafeCheck_triggers st then Except.error st
  else Except.ok (wrappedFunction st)

/-- Shared arithmetic core for the coordinate-conversion claims: writing
`M` for the computed normalized coordinate, `M` lies in `[0, 65535]` and
`M * d` lies in `[65536 * p, 65536 * p + 65535]`. -/
lemma norm_coord_bounds (p d : Int) (hd1 : 1 ≤ d) (hd2 : d ≤ 65536)
    (hp0 : 0 ≤ p) (hpd : p < d) :
    (0 ≤ _calc_normalized_screen_coord p d ∧
      _calc_normalized_screen_coord p d ≤ 65535) ∧
    65536 * p ≤ _calc_normalized_screen_coord p d * d ∧
      _calc_normalized_screen_coord p d * d ≤ 65536 * p + 65535 := by
  have hd0 : (0 : Int) < d := hd1
  have hdnn : (0 : Int) ≤ d := le_of_lt hd0
  have hdne : d ≠ 0 := by omega
  have e1 : Int.fdiv (p * 65536 + d - 1) d = (p * 65536 + d - 1) / d :=
    Int.fdiv_eq_ediv _ hdnn
  have e2 : Int.fdiv ((p + 1) * 65536 + d - 1) d =
      ((p + 1) * 65536 + d - 1) / d := Int.fdiv_eq_ediv _ hdnn
  have hcalc : _calc_normalized_screen_coord p d =
      ((p * 65536 + d - 1) / d + ((p + 1) * 65536 + d - 1) / d) / 2 := by
    show Int.fdiv (Int.fdiv (p * 65536 + d - 1) d +
      Int.fdiv ((p + 1) * 65536 + d - 1) d) 2 = _
    rw [e1, e2]
    exact Int.fdiv_eq_ediv _ (by norm_num)
  rw [hcalc]
  have h1 := Int.ediv_add_emod (p * 65536 + d - 1) d
  have h2 := Int.emod_nonneg (p * 65536 + d - 1) hdne
  have h3 := Int.emod_lt_of_pos (p * 65536 + d - 1) hd0
  have h4 := Int.ediv_add_emod ((p + 1) * 65536 + d - 1) d
  have h5 := Int.emod_nonneg ((p + 1) * 65536 + d - 1) hdne
  have h6 := Int.emod_lt_of_pos ((p + 1) * 65536 + d - 1) hd0
  have hA0 : 0 ≤ p * 65536 + d - 1 := by
    have := mul_nonneg hp0 (by norm_num : (0:Int) ≤ 65536)
    linarith
  have hB0 : 0 ≤ (p + 1) * 65536 + d - 1 := by nlinarith
  obtain ⟨T, hT⟩ : ∃ T, (p * 65536 + d - 1) / d = T := ⟨_, rfl⟩
  obtain ⟨X, hX⟩ : ∃ X, ((p + 1) * 65536 + d - 1) / d = X := ⟨_, rfl⟩
  have hT0 : 0 ≤ T := hT ▸ Int.ediv_nonneg hA0 hdnn
  have hX0 : 0 ≤ X := hX ▸ Int.ediv_nonneg hB0 hdnn
  rw [hT] at h1 ⊢
  rw [hX] at h4 ⊢
  have h7 := Int.ediv_add_emod (T + X) 2
  have h8 := Int.emod_nonneg (T + X) (by norm_num : (2:Int) ≠ 0)
  have h9 := Int.emod_lt_of_pos (T + X) (by norm_num : (0:Int) < 2)
  have hM0' : 0 ≤ (T + X) / 2 := Int.ediv_nonneg (by omega) (by norm_num)
  obtain ⟨M, hM⟩ : ∃ M, (T + X) / 2 = M := ⟨_, rfl⟩
  rw [hM] at h7 hM0' ⊢
  have hTge : 65536 * p ≤ d * T := by linarith
  have hTle : d * T ≤ 65536 * p + d - 1 := by linarith
  have hXge : 65536 * p + 65536 ≤ d * X := by linarith
  have hXle : d * X ≤ 65536 * p + 65536 + d - 1 := by linarith
  have hTX : T < X := by
    have hmul : d * T < d * X := by linarith
    exact lt_of_mul_lt_mul_left hmul hdnn
  have hTM : T ≤ M := by omega
  have hMX : M + 1 ≤ X := by omega
  have hdTM : d * T ≤ d * M := mul_le_mul_of_nonneg_left hTM hdnn
  have hdMX : d * M ≤ d * (X - 1) :=
    mul_le_mul_of_nonneg_left (by omega) hdnn
  have hdX1 : d * (X - 1) = d * X - d := by ring
  have hlo : 65536 * p ≤ d * M := le_trans hTge hdTM
  have hup : d * M ≤ 65536 * p + 65535 := by linarith
  have hpd1 : p ≤ d - 1 := by omega
  have hXN : X ≤ 65536 := by
    have hmul : d * X < d * 65537 := by linarith
    have := lt_of_mul_lt_mul_left hmul hdnn
    omega
  have hMle : M ≤ 65535 := by omega
  refine ⟨⟨hM0', hMle⟩, ?_, ?_⟩
  · calc 65536 * p ≤ d * M := hlo
      _ = M * d := mul_comm d M
  · calc M * d = d * M := mul_comm M d
      _ ≤ 65536 * p + 65535 := hup

/-- C1: pixel-to-normalized conversion round-trips exactly.  For every
display extent `d` with `1 ≤ d ≤ 65536` and every pixel coordinate `p`
with `0 ≤ p < d`, mapping `_calc_normalized_screen_coord(p, d)` back to a
pixel the way the absolute-positioning injection call does, namely
`floor(norm * d / 65536)`, yields exactly `p`. -/
theorem calc_normalized_screen_coord_roundtrip (p d : Int) (hd1 : 1 ≤ d)
    (hd2 : d ≤ 65536) (hp0 : 0 ≤ p) (hpd : p < d) :
    Int.fdiv (_calc_normalized_screen_coord p d * d) 65536 = p := by
  rw [Int.fdiv_eq_ediv _ (by norm_num : (0:Int) ≤ 65536)]
  obtain ⟨-, hlo, hup⟩ := norm_coord_bounds p d hd1 hd2 hp0 hpd
  obtain ⟨k, hk⟩ : ∃ k, _calc_normalized_screen_coord p d * d = k := ⟨_, rfl⟩
  rw [hk] at hlo hup ⊢
  omega

/-- Witness for C1 at `p = 3`, `d = 7`. -/
theorem calc_normalized_screen_coord_roundtrip_witness :
    ((1:Int) ≤ 7 ∧ (7:Int) ≤ 65536 ∧ (0:Int) ≤ 3 ∧ (3:Int) < 7) ∧
    Int.fdiv (_calc_normalized_screen_coord 3 7 * 7) 65536 = 3 :=
  ⟨by decide,
    calc_normalized_screen_coord_roundtrip 3 7 (by decide) (by decide)
      (by decide) (by decide)⟩

/-- C2 (counterexample): the claim quantifies over every display extent
`d ≥ 1`, but at `d = 65537`, `p = 65536` (so `1 ≤ d`, `0 ≤ p < d`) the
function returns 65536, outside the claimed range `0..65535`. -/
theorem calc_normalized_screen_coord_range_counterexample :
    ((1:Int) ≤ 65537 ∧ (0:Int) ≤ 65536 ∧ (65536:Int) < 65537) ∧
    _calc_normalized_screen_coord 65536 65537 = 65536 ∧
    ¬ _calc_normalized_screen_coord 65536 65537 ≤ 65535 := by decide

/-- C2 (amended): for every display extent `d` with `1 ≤ d ≤ 65536` and
every pixel coordinate `p` with `0 ≤ p < d`,
`_calc_normalized_screen_coord(p, d)` returns an integer in the range 0 to
65535 inclusive. -/
theorem calc_normalized_screen_coord_range (p d : Int) (hd1 : 1 ≤ d)
    (hd2 : d ≤ 65536) (hp0 : 0 ≤ p) (hpd : p < d) :
    0 ≤ _calc_normalized_screen_coord p d ∧
      _calc_normalized_screen_coord p d ≤ 65535 :=
  (norm_coord_bounds p d hd1 hd2 hp0 hpd).1

/-- Witness for the amended C2 at `p = 3`, `d = 7`. -/
theorem calc_normalized_screen_coord_range_witness :
    ((1:Int) ≤ 7 ∧ (7:Int) ≤ 65536 ∧ (0:Int) ≤ 3 ∧ (3:Int) < 7) ∧
    (0 ≤ _calc_normalized_screen_coord 3 7 ∧
      _calc_normalized_screen_coord 3 7 ≤ 65535) :=
  ⟨by decide,
    calc_normalized_screen_coord_range 3 7 (by decide) (by decide)
      (by decide) (by decide)⟩

/-- One iteration of the scancode loop appends exactly the events of
`per_scancode_events` and advances the counter by their number. -/
lemma scancode_event_step_eq (keybdFlags : Nat) (auto_shift : Bool)
    (acc : List INPUT × Nat) (scancode : Nat) :
    scancode_event_step keybdFlags auto_shift acc scancode =
      (acc.1 ++ per_scancode_events keybdFlags auto_shift scancode,
        acc.2 +
          (per_scancode_events keybdFlags auto_shift scancode).length) := by
  simp only [scancode_event_step, per_scancode_events]
  by_cases hs : auto_shift = true ∧ scancode &&& _OFFSET_SHIFTKEY ≠ 0
  · simp [hs, List.append_assoc]
  · simp [hs]

/-- The scancode loop from an arbitrary accumulator appends the
concatenation of all per-scancode event blocks and counts them. -/
lemma scancode_event_foldl_eq (keybdFlags : Nat) (auto_shift : Bool)
    (l : List Nat) (acc : List INPUT × Nat) :
    l.foldl (scancode_event_step keybdFlags auto_shift) acc =
      (acc.1 ++ l.flatMap (per_scancode_events keybdFlags auto_shift),
        acc.2 +
          (l.flatMap (per_scancode_events keybdFlags auto_shift)).length) := by
  induction l generalizing acc with
  | nil => simp
  | cons s rest ih =>
    rw [List.foldl_cons, scancode_event_step_eq, ih]
    simp [List.append_assoc]
    omega

/-- The `expectedEvents` counter of the scancode loop equals the length of
the constructed `input_structs` array, and that array is the concatenation
of the per-scancode event blocks. -/
lemma scancode_event_loop_eq (keybdFlags : Nat) (auto_shift : Bool)
    (l : List Nat) :
    scancode_event_loop keybdFlags auto_shift l =
      (l.flatMap (per_scancode_events keybdFlags auto_shift),
        (l.flatMap (per_scancode_events keybdFlags auto_shift)).length) := by
  unfold scancode_event_loop
  rw [scancode_event_foldl_eq]
  simp

/-- C3: extended-key and shift-offset encoding of the scancode event
arrays.  The arrays built by `scancode_keyDown` / `scancode_keyUp`
concatenate, per scancode `s`, an optional Shift record (scan code
`_SHIFT_SCANCODE = 0x2A`, same direction flags, immediately before) emitted
exactly when `auto_shift` is set and `s` has the `_OFFSET_SHIFTKEY = 0x10000`
bit, followed by the record for `s &&& 0xFFFF`; that record carries the
scancode flag, carries `_KEYEVENTF_EXTENDEDKEY` exactly when
`s &&& 0xFFFF ≥ 0xE000`, and shares the key-up bit with the base flags. -/
theorem scancode_key_event_encoding (send : List INPUT → Nat)
    (scancodes : ScancodeTypes) (auto_shift : Bool) (s : Nat) :
    (scancode_keyDown send scancodes auto_shift).2 =
      (to_scancode_sequence scancodes).flatMap
        (per_scancode_events _KEYEVENTF_SCANCODE auto_shift) ∧
    (scancode_keyUp send scancodes auto_shift).2 =
      (to_scancode_sequence scancodes).flatMap
        (per_scancode_events (_KEYEVENTF_SCANCODE ||| _KEYEVENTF_KEYUP)
          auto_shift) ∧
    (∀ keybdFlags : Nat,
      keybdFlags = _KEYEVENTF_SCANCODE ∨
        keybdFlags = _KEYEVENTF_SCANCODE ||| _KEYEVENTF_KEYUP →
      per_scancode_events keybdFlags auto_shift s =
        (if auto_shift = true ∧ s &&& _OFFSET_SHIFTKEY ≠ 0 then
          [_create_keyboard_input 0 _SHIFT_SCANCODE keybdFlags]
        else []) ++
        [_create_keyboard_input 0 (s &&& 0xFFFF)
          (keybdFlags |||
            (if 0xE000 ≤ s &&& 0xFFFF then _KEYEVENTF_EXTENDEDKEY
              else 0))] ∧
      (keybdFlags |||
          (if 0xE000 ≤ s &&& 0xFFFF then _KEYEVENTF_EXTENDEDKEY else 0)) &&&
          _KEYEVENTF_SCANCODE ≠ 0 ∧
      ((keybdFlags |||
          (if 0xE000 ≤ s &&& 0xFFFF then _KEYEVENTF_EXTENDEDKEY else 0)) &&&
          _KEYEVENTF_EXTENDEDKEY ≠ 0 ↔ 0xE000 ≤ s &&& 0xFFFF) ∧
      (keybdFlags |||
          (if 0xE000 ≤ s &&& 0xFFFF then _KEYEVENTF_EXTENDEDKEY else 0)) &&&
          _KEYEVENTF_KEYUP = keybdFlags &&& _KEYEVENTF_KEYUP) := by
  refine ⟨?_, ?_, ?_⟩
  · simp only [scancode_keyDown]
    rw [scancode_event_loop_eq]
  · simp only [scancode_keyUp]
    rw [scancode_event_loop_eq]
  · intro keybdFlags hkf
    by_cases hE : 0xE000 ≤ s &&& 0xFFFF
    · rcases hkf with h | h <;> subst h <;>
        exact ⟨by simp [per_scancode_events], by simp [hE] <;> decide,
          by simp [hE] <;> decide, by simp [hE] <;> decide⟩
    · rcases hkf with h | h <;> subst h <;>
        exact ⟨by simp [per_scancode_events], by simp [hE] <;> decide,
          by simp [hE] <;> decide, by simp [hE] <;> decide⟩

/-- Witness for C3: down-direction flags at the shifted extended scancode
`s = 0x1E04B` with `auto_shift = true`. -/
theorem scancode_key_event_encoding_witness :
    (_KEYEVENTF_SCANCODE |||
        (if 0xE000 ≤ 0x1E04B &&& 0xFFFF then _KEYEVENTF_EXTENDEDKEY
          else 0)) &&& _KEYEVENTF_SCANCODE ≠ 0 :=
  ((scancode_key_event_encoding (fun _ => 0)
      (ScancodeTypes.single 0x1E04B) true 0x1E04B).2.2
    _KEYEVENTF_SCANCODE (Or.inl rfl)).2.1

/-- C4: `scancode_keyDown` and `scancode_keyUp` return `True` exactly when
the count returned by the input-injection primitive equals the number of
event records they constructed and submitted; the boolean comparison is
the only handling of the injection result. -/
theorem scancode_key_success_iff (send : List INPUT → Nat)
    (scancodes : ScancodeTypes) (auto_shift : Bool) :
    ((scancode_keyDown send scancodes auto_shift).1 = true ↔
      send (scancode_keyDown send scancodes auto_shift).2 =
        (scancode_keyDown send scancodes auto_shift).2.length) ∧
    ((scancode_keyUp send scancodes auto_shift).1 = true ↔
      send (scancode_keyUp send scancodes auto_shift).2 =
        (scancode_keyUp send scancodes auto_shift).2.length) := by
  constructor
  · simp only [scancode_keyDown]
    rw [scancode_event_loop_eq]
    simp
  · simp only [scancode_keyUp]
    rw [scancode_event_loop_eq]
    simp

/-- While the nesting counter is at least 1, every further `set` call only
increments the counter and leaves the stored values alone. -/
lemma do_sets_nested (vs : List (Int × Int)) :
    ∀ st : MouseSpeedState, 1 ≤ st.ctx_count →
      do_sets st vs = { st with ctx_count := st.ctx_count + vs.length } := by
  induction vs with
  | nil => intro st _; simp [do_sets]
  | cons v rest ih =>
    intro st h
    rw [do_sets]
    have hset : set_ctxtmgr_mouse_settings st v.1 v.2 =
        { st with ctx_count := st.ctx_count + 1 } := by
      unfold set_ctxtmgr_mouse_settings
      rw [if_pos (by omega)]
    rw [hset, ih _ (by simp; omega)]
    simp [MouseSpeedState.mk.injEq]
    omega

/-- The first `set` call on an idle store records its values; the later
ones only bump the counter. -/
lemma do_sets_from_zero (e s : Int) (rest : List (Int × Int))
    (st : MouseSpeedState) (h : st.ctx_count = 0) :
    do_sets st ((e, s) :: rest) =
      { ctx_epp := some e, ctx_speed := some s,
        ctx_count := 1 + rest.length } := by
  rw [do_sets]
  have hset : set_ctxtmgr_mouse_settings st e s =
      { ctx_epp := some e, ctx_speed := some s,
        ctx_count := st.ctx_count + 1 } := by
    unfold set_ctxtmgr_mouse_settings
    rw [if_neg (by omega)]
  rw [hset, do_sets_nested rest _ (by simp [h])]
  simp [MouseSpeedState.mk.injEq, h]

/-- Draining a store whose counter is `k + 1` with `k + 1` `get` calls:
the first `k` return `(None, None)`, the last returns the stored values,
and the final state is fully reset. -/
lemma do_gets_drain (k : Nat) :
    ∀ st : MouseSpeedState, st.ctx_count = (k : Int) + 1 →
      do_gets st (k + 1) =
        (List.replicate k ((none : Option Int), (none : Option Int)) ++
            [(st.ctx_epp, st.ctx_speed)],
          { ctx_epp := none, ctx_speed := none, ctx_count := 0 }) := by
  induction k with
  | zero =>
    intro st h
    rw [do_gets]
    have hget : get_ctxtmgr_mouse_settings st =
        ((st.ctx_epp, st.ctx_speed),
          { ctx_epp := none, ctx_speed := none,
            ctx_count := st.ctx_count - 1 }) := by
      unfold get_ctxtmgr_mouse_settings
      rw [if_neg (by omega)]
    rw [hget]
    simp [do_gets, h]
  | succ k ih =>
    intro st h
    rw [do_gets]
    have hget : get_ctxtmgr_mouse_settings st =
        ((none, none), { st with ctx_count := st.ctx_count - 1 }) := by
      unfold get_ctxtmgr_mouse_settings
      rw [if_pos (by omega)]
    rw [hget, ih _ (by simp; omega)]
    simp [List.replicate_succ]

/-- Filtering a run of `(None, None)` answers for a stored value finds
nothing. -/
lemma filter_isSome_replicate_none (n : Nat) :
    (List.replicate n ((none : Option Int), (none : Option Int))).filter
      (fun o => o.1.isSome) = [] := by
  induction n with
  | zero => rfl
  | succ k ih => simp [List.replicate_succ, ih]

/-- C6: the mutual-exclusion-guarded cache of mouse-acceleration settings
is balanced.  For `n = rest.length + 1 ≥ 1` calls to
`set_ctxtmgr_mouse_settings` (first one with values `(e, s)`) followed by
`n` calls to `get_ctxtmgr_mouse_settings`, starting from the idle store:
every get but the last returns `(None, None)`, the last returns the
values of the first set, afterwards the store is reset with counter 0,
and exactly one get (the outermost restore in
`_without_mouse_acceleration`) sees stored values. -/
theorem mouse_settings_store_balanced (e s : Int)
    (rest : List (Int × Int)) :
    (do_gets (do_sets ⟨none, none, 0⟩ ((e, s) :: rest))
        (rest.length + 1)).1 =
      List.replicate rest.length ((none : Option Int), (none : Option Int))
        ++ [(some e, some s)] ∧
    (do_gets (do_sets ⟨none, none, 0⟩ ((e, s) :: rest))
        (rest.length + 1)).2 =
      ⟨none, none, 0⟩ ∧
    ((do_gets (do_sets ⟨none, none, 0⟩ ((e, s) :: rest))
        (rest.length + 1)).1.filter (fun o => o.1.isSome)).length = 1 := by
  rw [do_sets_from_zero e s rest _ rfl]
  rw [do_gets_drain rest.length _ (by simp; omega)]
  refine ⟨by simp, by simp, ?_⟩
  simp [List.filter_append, filter_isSome_replicate_none]

/-- C8: unknown key names fail closed.  If `key` is not in the mapping,
`keyDown` and `keyUp` return `False` and submit no event records (the
`dict.get` lookup returns `None` instead of raising). -/
theorem unknown_key_fails_closed (mapping : Mapping)
    (send : List INPUT → Nat) (key : String) (auto_shift : Bool)
    (h : List.lookup key mapping = none) :
    keyDown mapping send key auto_shift = (false, []) ∧
    keyUp mapping send key auto_shift = (false, []) := by
  unfold keyDown keyUp
  rw [h]
  exact ⟨rfl, rfl⟩

/-- Witness for C8 at the empty mapping and key `"q"`. -/
theorem unknown_key_fails_closed_witness :
    List.lookup "q" ([] : Mapping) = none ∧
    (keyDown [] (fun _ => 0) "q" false = (false, []) ∧
      keyUp [] (fun _ => 0) "q" false = (false, [])) :=
  ⟨rfl, unknown_key_fails_closed [] (fun _ => 0) "q" false rfl⟩

/-- C9: the failsafe check runs before any injection.  A function wrapped
by `_genericPyDirectInputChecks` raises `FailSafeException` if and only if
`FAILSAFE` is set and the cursor position is one of `FAILSAFE_POINTS` at
call time; when it raises, the wrapped function has not run, so the
process state (including the stream of submitted events) is exactly the
call-time state. -/
theorem failsafe_checked_before_injection {α : Type}
    (wrappedFunction : PyState → α × PyState) (st : PyState) :
    ((∃ st0, _genericPyDirectInputChecks wrappedFunction st =
        Except.error st0) ↔
      (st.FAILSAFE = true ∧ st.cursor ∈ st.FAILSAFE_POINTS)) ∧
    (∀ st0, _genericPyDirectInputChecks wrappedFunction st =
        Except.error st0 → st0 = st) := by
  constructor
  · simp only [_genericPyDirectInputChecks, _failSafeCheck_triggers]
    split_ifs with hcond
    · simp only [Bool.and_eq_true, decide_eq_true_eq] at hcond
      simp [hcond]
    · simp only [Bool.and_eq_true, decide_eq_true_eq] at hcond
      simp [hcond]
  · intro st0 h0
    simp only [_genericPyDirectInputChecks] at h0
    split_ifs at h0 with hcond
    injection h0 with h1
    exact h1.symm

/-- Witness for C9: with the failsafe triggering state the wrapper raises
and reports the untouched state. -/
theorem failsafe_checked_before_injection_witness :
    (∃ st0, _genericPyDirectInputChecks (fun st => ((), st))
        ⟨[], [], true, [(0, 0)], (0, 0), []⟩ = Except.error st0) ∧
    (PyState.mk [] [] true [(0, 0)] (0, 0) []).FAILSAFE = true ∧
    (PyState.mk [] [] true [(0, 0)] (0, 0) []).cursor ∈
      (PyState.mk [] [] true [(0, 0)] (0, 0) []).FAILSAFE_POINTS :=
  ⟨(failsafe_checked_before_injection (fun st => ((), st))
      ⟨[], [], true, [(0, 0)], (0, 0), []⟩).1.mpr ⟨rfl, by decide⟩,
    rfl, by decide⟩

/-- C10: with `duration = 0` the first clock reading of the `moveRel`
relative loop is nonpositive (the hypothesis `c ≤ 0`: `final_time` is the
entry time plus 0 and the clock is monotone), so the loop runs exactly one
iteration and submits a single relative-move record with displacement
`(xOffset, yOffset)` (`None` treated as 0) — except that it submits
nothing when both offsets are 0. -/
theorem instant_moveRel_single_event (xOffset yOffset : Option Int)
    (c : Int) (rest : List Int) (hc : c ≤ 0) :
    moveRel_relative xOffset yOffset (c :: rest) =
      (if xOffset.getD 0 = 0 ∧ yOffset.getD 0 = 0 then []
        else [_create_mouse_input (xOffset.getD 0) (yOffset.getD 0) 0
          _MOUSEEVENTF_MOVE]) := by
  unfold moveRel_relative moveRel_loop
  have hts : min c (max (xOffset.getD 0 - 0) (yOffset.getD 0 - 0)) ≤ 1 :=
    le_trans (min_le_left _ _) (by omega)
  have hx : _add_one_step 0 (xOffset.getD 0)
      (min c (max (xOffset.getD 0 - 0) (yOffset.getD 0 - 0))) - 0 =
      xOffset.getD 0 := by
    unfold _add_one_step
    rw [if_pos hts]
    ring
  have hy : _add_one_step 0 (yOffset.getD 0)
      (min c (max (xOffset.getD 0 - 0) (yOffset.getD 0 - 0))) - 0 =
      yOffset.getD 0 := by
    unfold _add_one_step
    rw [if_pos hts]
    ring
  simp only [hx, hy, hts, if_true]

/-- Appending to the submitted-event stream leaves every other state
component, in particular both key-mapping dicts, untouched. -/
lemma send_input_st_mapping (st : PyState) (inputs : List INPUT) :
    same_mappings st (_send_input_st st inputs) := ⟨rfl, rfl⟩

/-- Witness for C10 at `xOffset = 5`, `yOffset = None`, clock reading 0. -/
theorem instant_moveRel_single_event_witness :
    ((0 : Int) ≤ 0) ∧
    moveRel_relative (some 5) none [0] =
      [_create_mouse_input 5 0 0 _MOUSEEVENTF_MOVE] := by
  refine ⟨le_refl 0, ?_⟩
  rw [instant_moveRel_single_event (some 5) none 0 [] (le_refl 0)]
  decide

end PyDirectInput
